import Mathlib

/-!
Shallow embedding of the two core components of the `rsfiles` file manager:

* `NavigationState` (src/navigation.rs): a browser-style back/forward history
  of visited directory paths with per-directory remembered scroll offsets.
* the elevation-escalating delete routine (src/delete.rs): a cascade of
  OS-level deletion strategies, modelled below over an abstract OS oracle.

Paths (`PathBuf`) are modelled as `String` (with `to_string_lossy` as the
identity, which is faithful for valid unicode paths).  Scroll offsets (`f32`)
are modelled as `Rat`: the code only stores and returns scroll values, never
performs arithmetic on them, so any carrier with the literals `0` and `42`
is faithful.
-/

/-- One recorded directory visit (src/navigation.rs, `ViewHistory`). -/
structure ViewHistory where
  path : String
  scroll : Rat
deriving DecidableEq, Repr

/-- `ViewHistory::new` (src/navigation.rs lines 18-22). -/
def ViewHistory.new (path : String) (scroll : Rat) : ViewHistory :=
  { path := path, scroll := scroll }

/-- The navigation history state (src/navigation.rs, `NavigationState`). -/
structure NavigationState where
  current_path : String
  path_input : String
  history : List ViewHistory
  history_index : Nat
  max_history : Nat
deriving DecidableEq, Repr

namespace NavigationState

/-- `NavigationState::new` (src/navigation.rs lines 25-37).  The Rust code
obtains the initial directory from `env::current_dir()` (an ambient
effect); we model it as an explicit parameter `initial`. -/
def new (initial : String) : NavigationState :=
  { current_path := initial
    path_input := initial
    history := [ViewHistory.new initial 0]
    history_index := 0
    max_history := 50 }

/-- `get_remembered_scroll` (src/navigation.rs lines 52-59): search the
history from the most recent entry backwards for a visit to `path`,
defaulting to `0.0`. -/
def get_remembered_scroll (s : NavigationState) (path : String) : Rat :=
  ((s.history.reverse.find? (fun e => e.path == path)).map
    (fun e => e.scroll)).getD 0

/-- `add_to_history` (src/navigation.rs lines 62-83): truncate forward
entries, suppress a duplicate of the last entry (the Rust
`if let Some(last) = self.history.last() { if last.path == path { return } }`
is the test `getLast?.map path = some path` below), push, and evict the
front entry on overflow (`Vec::truncate` is `List.take`, `Vec::remove(0)`
is `List.drop 1`).  Note that on the eviction branch the Rust code does
not reassign `history_index`. -/
def add_to_history (s : NavigationState) (path : String) (scroll : Rat) :
    NavigationState :=
  let s1 := if s.history_index + 1 < s.history.length then
      { s with history := s.history.take (s.history_index + 1) }
    else s
  if s1.history.getLast?.map ViewHistory.path = some path then s1
  else
    let h := s1.history ++ [ViewHistory.new path scroll]
    if h.length > s1.max_history then { s1 with history := h.drop 1 }
    else { s1 with history := h, history_index := h.length - 1 }

/-- `navigate_to` (src/navigation.rs lines 39-43).  The remembered scroll is
computed on the pre-state (Rust evaluates the argument before the call). -/
def navigate_to (s : NavigationState) (path : String) : NavigationState :=
  let s1 := s.add_to_history path (s.get_remembered_scroll path)
  { s1 with current_path := path, path_input := path }

/-- `update_current_scroll` (src/navigation.rs lines 46-50): `get_mut` on a
valid index mutates that entry's scroll in place, otherwise no-op. -/
def update_current_scroll (s : NavigationState) (scroll : Rat) :
    NavigationState :=
  match s.history.get? s.history_index with
  | some e =>
    { s with history :=
        s.history.set s.history_index { e with scroll := scroll } }
  | none => s

/-- `can_go_back` (src/navigation.rs lines 85-87). -/
def can_go_back (s : NavigationState) : Bool :=
  decide (0 < s.history_index)

/-- `can_go_forward` (src/navigation.rs lines 89-91). -/
def can_go_forward (s : NavigationState) : Bool :=
  decide (s.history_index + 1 < s.history.length)

/-- `go_back` (src/navigation.rs lines 93-103).  The Rust code indexes
`self.history[self.history_index]` after the decrement; for a well-formed
state (index within bounds) the `none` branch of `get?` below is
unreachable (in Rust it would be an out-of-bounds panic). -/
def go_back (s : NavigationState) : Option ViewHistory × NavigationState :=
  if s.can_go_back then
    let i := s.history_index - 1
    match (s.history.get? i) with
    | some h =>
      (some h,
       { s with history_index := i, current_path := h.path,
                path_input := h.path })
    | none => (none, { s with history_index := i })
  else (none, s)

/-- `go_forward` (src/navigation.rs lines 105-115); same modelling notes as
`go_back`. -/
def go_forward (s : NavigationState) : Option ViewHistory × NavigationState :=
  if s.can_go_forward then
    let i := s.history_index + 1
    match (s.history.get? i) with
    | some h =>
      (some h,
       { s with history_index := i, current_path := h.path,
                path_input := h.path })
    | none => (none, { s with history_index := i })
  else (none, s)

/-- `get_current_scroll` (src/navigation.rs lines 118-123). -/
def get_current_scroll (s : NavigationState) : Rat :=
  ((s.history.get? s.history_index).map (fun e => e.scroll)).getD 0

/-- Well-formedness: non-empty history and in-bounds cursor (spec §3). -/
def Inv (s : NavigationState) : Prop :=
  s.history ≠ [] ∧ s.history_index < s.history.length

/-- The states reachable from construction by the four mutating
operations (the reachable-state set of claim C5). -/
inductive Reachable : NavigationState → Prop
  | init (p : String) : Reachable (new p)
  | nav {s : NavigationState} (p : String) :
      Reachable s → Reachable (s.navigate_to p)
  | back {s : NavigationState} :
      Reachable s → Reachable (s.go_back).2
  | fwd {s : NavigationState} :
      Reachable s → Reachable (s.go_forward).2
  | scroll {s : NavigationState} (x : Rat) :
      Reachable s → Reachable (s.update_current_scroll x)

/-- The tail-cursor strengthening of the invariant, maintained by every
`navigate_to` call: the cursor sits on the last entry and the length
respects the bound. -/
def TailInv (s : NavigationState) : Prop :=
  s.history_index + 1 = s.history.length ∧
  s.history.length ≤ s.max_history

end NavigationState

/-!
Embedding of the elevation-escalating delete routine (src/delete.rs).

The routine's interaction with the operating system — the plain
`fs::remove_*` call, each `path.exists()` re-check, writing and removing the
temporary batch file, and each elevated child-process spawn — is external
state.  We model it as an oracle record `OS` with one field per external
call site, in the order the source performs the calls, and instrument every
function with a trace of the externally visible actions it performs
(`Ev`).  The functions themselves mirror src/delete.rs line by line.
-/

/-- Outcome of `Command::output()` at one spawn site: `ok b` is
`Ok(result)` with `result.status.success() = b`; `err m` is `Err(m)`. -/
inductive SpawnResult where
  | ok (success : Bool)
  | err (msg : String)
deriving DecidableEq, Repr

/-- Externally visible actions of the delete routine, in the order they are
performed: the stage-2 elevated PowerShell spawn (carrying the inner
`Remove-Item` script), the write of the temporary batch file (carrying its
content), the stage-3 elevated cmd spawn, the removal attempt of the batch
file, and the stage-4 elevated PowerShell spawn (carrying its inner
command). -/
inductive Ev where
  | spawnPS2 (script : String)
  | writeBat (content : String)
  | spawnCmd
  | removeBat
  | spawnPS4 (command : String)
deriving DecidableEq, Repr

/-- Oracle for the external calls of one `delete_with_elevation`
invocation, one field per call site in source order (src/delete.rs). -/
structure OS where
  /-- `fs::remove_dir_all` / `fs::remove_file` succeeded (line 36-44). -/
  normalDeleteOk : Bool
  /-- Stage-2 `Command::output()` outcome (lines 57-63). -/
  stage2Spawn : SpawnResult
  /-- `path.exists()` re-check after stage 2 (line 67). -/
  existsAfterStage2 : Bool
  /-- `fs::write` of the batch file: `none` is success, `some e` the error
  (line 123). -/
  batWriteErr : Option String
  /-- Stage-3 `Command::output()` outcome (lines 130-136). -/
  stage3Spawn : SpawnResult
  /-- `fs::remove_file(&batch_file)` succeeded (line 139); its result is
  discarded by the source (`let _ =`). -/
  batRemoveOk : Bool
  /-- `path.exists()` re-check after stage 3 (line 87). -/
  existsAfterStage3 : Bool
  /-- Stage-4 `Command::output()` outcome (lines 161-167). -/
  stage4Spawn : SpawnResult
  /-- `path.exists()` re-check after stage 4 (line 93). -/
  existsAfterStage4 : Bool
  /-- final `path.exists()` check (line 98). -/
  existsFinal : Bool
deriving DecidableEq, Repr

namespace ElevatedDelete

/-- Core of `rust_replace`: replace every non-overlapping occurrence of
`pat` in `l`, scanning left to right, consuming at least one character
per step.  Written with explicit fuel so that it is structurally
recursive and reduces inside the kernel. -/
def replace_chars (fuel : Nat) (l pat rep : List Char) : List Char :=
  match fuel, l with
  | 0, l => l
  | _ + 1, [] => []
  | n + 1, c :: cs =>
    if pat ≠ [] ∧ pat <+: (c :: cs) then
      rep ++ replace_chars n ((c :: cs).drop pat.length) pat rep
    else c :: replace_chars n cs pat rep

/-- Model of Rust `str::replace(pat, rep)` (the pattern is a non-empty
literal at every call site in src/delete.rs). -/
def rust_replace (s pat rep : String) : String :=
  ⟨replace_chars s.data.length s.data pat.data rep.data⟩

/-- The inner PowerShell script of stage 2 (src/delete.rs lines 50-54):
embedded single quotes in the path are doubled before interpolation. -/
def ps_script (path_str : String) (is_dir : Bool) : String :=
  if is_dir then
    "Remove-Item -LiteralPath '" ++ rust_replace path_str "'" "''"
      ++ "' -Recurse -Force -ErrorAction Stop"
  else
    "Remove-Item -LiteralPath '" ++ rust_replace path_str "'" "''"
      ++ "' -Force -ErrorAction Stop"

/-- The stage-3 batch script content (src/delete.rs lines 107-117): the
path text is interpolated verbatim inside double quotes, with no escaping
of any character. -/
def script_content (path_str : String) (is_dir : Bool) : String :=
  if is_dir then
    "@echo off\ntakeown /f \"" ++ path_str
      ++ "\" /r /d y >nul 2>&1\nicacls \"" ++ path_str
      ++ "\" /grant administrators:F /t >nul 2>&1\nrmdir /s /q \""
      ++ path_str ++ "\""
  else
    "@echo off\ntakeown /f \"" ++ path_str
      ++ "\" >nul 2>&1\nicacls \"" ++ path_str
      ++ "\" /grant administrators:F >nul 2>&1\ndel /f /q \""
      ++ path_str ++ "\""

/-- The inner PowerShell command of stage 4 (src/delete.rs lines 155-159):
embedded single quotes in the path are doubled before interpolation. -/
def ps_command (path_str : String) (is_dir : Bool) : String :=
  if is_dir then
    "Remove-Item -Path '" ++ rust_replace path_str "'" "''"
      ++ "' -Recurse -Force"
  else
    "Remove-Item -Path '" ++ rust_replace path_str "'" "''" ++ "' -Force"

/-- `try_cmd_delete` (src/delete.rs lines 105-151): write the batch script
to a temp file (early-error on failure), spawn the elevated cmd, remove the
temp file unconditionally afterwards with the removal result discarded,
then map the spawn outcome to a `Result`.  The `writeBat` event records the
attempt (logged whether or not the write succeeds). -/
def try_cmd_delete (os : OS) (path_str : String) (is_dir : Bool) :
    List Ev × Except String Unit :=
  let content := script_content path_str is_dir
  match os.batWriteErr with
  | some e =>
    ([Ev.writeBat content], Except.error ("Failed to create batch file: " ++ e))
  | none =>
    let evs := [Ev.writeBat content, Ev.spawnCmd, Ev.removeBat]
    match os.stage3Spawn with
    | SpawnResult.ok true => (evs, Except.ok ())
    | SpawnResult.ok false => (evs, Except.error "Batch command failed")
    | SpawnResult.err e =>
      (evs, Except.error ("Failed to execute batch command: " ++ e))

/-- `try_powershell_direct` (src/delete.rs lines 153-179). -/
def try_powershell_direct (os : OS) (path_str : String) (is_dir : Bool) :
    List Ev × Except String Unit :=
  let cmd := ps_command path_str is_dir
  match os.stage4Spawn with
  | SpawnResult.ok true => ([Ev.spawnPS4 cmd], Except.ok ())
  | SpawnResult.ok false =>
    ([Ev.spawnPS4 cmd], Except.error "Direct PowerShell command failed")
  | SpawnResult.err e =>
    ([Ev.spawnPS4 cmd],
     Except.error ("Failed to execute PowerShell command: " ++ e))

/-- `force_delete_alternative` (src/delete.rs lines 82-103): stage 3, its
short-circuit existence check, stage 4, its short-circuit existence check,
then the final determination. -/
def force_delete_alternative (os : OS) (path_str : String) (is_dir : Bool) :
    List Ev × Except String Unit :=
  let r1 := try_cmd_delete os path_str is_dir
  if r1.2.isOk && !os.existsAfterStage3 then (r1.1, Except.ok ())
  else
    let r2 := try_powershell_direct os path_str is_dir
    if r2.2.isOk && !os.existsAfterStage4 then (r1.1 ++ r2.1, Except.ok ())
    else if os.existsFinal then
      (r1.1 ++ r2.1,
       Except.error "File/folder still exists after all deletion attempts")
    else (r1.1 ++ r2.1, Except.ok ())

/-- `delete_with_elevation` (src/delete.rs lines 34-79): plain delete,
then the elevated stage-2 spawn; stage 2 is terminal-`Ok` only when the
child reported success AND the target no longer exists, otherwise (and on
spawn error) it falls through to `force_delete_alternative`. -/
def delete_with_elevation (os : OS) (path : String) (is_dir : Bool) :
    List Ev × Except String Unit :=
  if os.normalDeleteOk then ([], Except.ok ())
  else
    let ps := ps_script path is_dir
    match os.stage2Spawn with
    | SpawnResult.ok st =>
      if st && !os.existsAfterStage2 then ([Ev.spawnPS2 ps], Except.ok ())
      else
        let r := force_delete_alternative os path is_dir
        (Ev.spawnPS2 ps :: r.1, r.2)
    | SpawnResult.err _ =>
      let r := force_delete_alternative os path is_dir
      (Ev.spawnPS2 ps :: r.1, r.2)

/-- Whether a trace records an attempt to run escalation stage 3 (the
batch-file route of `try_cmd_delete`). -/
def stage3_attempted (t : List Ev) : Bool :=
  t.any fun e =>
    match e with
    | Ev.writeBat _ => true
    | _ => false

end ElevatedDelete

/-- A concrete oracle: plain delete fails, the stage-2 elevated child
reports a failing exit status, yet the target is already gone from disk
when stage 2 re-checks (and stays gone). -/
def osStage2Denied : OS :=
  { normalDeleteOk := false
    stage2Spawn := SpawnResult.ok false
    existsAfterStage2 := false
    batWriteErr := none
    stage3Spawn := SpawnResult.ok true
    batRemoveOk := true
    existsAfterStage3 := false
    stage4Spawn := SpawnResult.ok true
    existsAfterStage4 := false
    existsFinal := false }

/-- A concrete oracle on which every deletion strategy fails and the
target survives every existence check. -/
def osAllFail : OS :=
  { normalDeleteOk := false
    stage2Spawn := SpawnResult.ok false
    existsAfterStage2 := true
    batWriteErr := none
    stage3Spawn := SpawnResult.ok false
    batRemoveOk := true
    existsAfterStage3 := true
    stage4Spawn := SpawnResult.err "elevation cancelled"
    existsAfterStage4 := true
    existsFinal := true }

namespace NavigationState

theorem add_to_history_spec (s : NavigationState) (p : String) (x : Rat)
    (hlt : s.history_index < s.history.length) :
    (s.add_to_history p x).history_index + 1 = (s.add_to_history p x).history.length ∧
    (s.add_to_history p x).max_history = s.max_history ∧
    (s.add_to_history p x).history.length ≤ max s.history.length s.max_history ∧
    (s.add_to_history p x).history.getLast?.map ViewHistory.path = some p := by
  simp only [add_to_history]
  rcases Nat.lt_or_ge (s.history_index + 1) s.history.length with h1 | h1
  · -- truncation branch
    simp only [if_pos h1]
    have hlen1 : (s.history.take (s.history_index + 1)).length = s.history_index + 1 := by
      simp [List.length_take]; omega
    by_cases h2 : (s.history.take (s.history_index + 1)).getLast?.map ViewHistory.path = some p
    · simp only [if_pos h2]
      refine ⟨?_, ?_, ?_, ?_⟩
      · simp [hlen1]
      · trivial
      · simp [hlen1]; omega
      · exact h2
    · simp only [if_neg h2]
      by_cases h3 : (s.history.take (s.history_index + 1) ++ [ViewHistory.new p x]).length > s.max_history
      · simp only [if_pos h3]
        have hne : 1 ≤ (s.history.take (s.history_index + 1)).length := by omega
        simp only [List.length_append, hlen1, List.length_cons, List.length_nil] at h3
        refine ⟨?_, ?_, ?_, ?_⟩
        · simp [List.length_drop, hlen1]
        · trivial
        · simp [List.length_drop, hlen1]; omega
        · rw [List.drop_append_of_le_length hne, List.getLast?_concat]
          simp [ViewHistory.new]
      · simp only [if_neg h3]
        simp only [gt_iff_lt, not_lt, List.length_append, hlen1, List.length_cons,
          List.length_nil] at h3
        refine ⟨?_, ?_, ?_, ?_⟩
        · simp [hlen1]
        · trivial
        · simp [hlen1]; omega
        · rw [List.getLast?_concat]; simp [ViewHistory.new]
  · -- no truncation: history_index + 1 = length
    have heq : s.history_index + 1 = s.history.length := by omega
    simp only [if_neg (by omega : ¬(s.history_index + 1 < s.history.length))]
    by_cases h2 : s.history.getLast?.map ViewHistory.path = some p
    · simp only [if_pos h2]
      exact ⟨heq, trivial, by simp, h2⟩
    · simp only [if_neg h2]
      by_cases h3 : (s.history ++ [ViewHistory.new p x]).length > s.max_history
      · simp only [if_pos h3]
        have hne : 1 ≤ s.history.length := by omega
        simp only [gt_iff_lt, List.length_append, List.length_cons, List.length_nil] at h3
        refine ⟨?_, ?_, ?_, ?_⟩
        · simp [List.length_drop]; omega
        · trivial
        · simp [List.length_drop]
        · rw [List.drop_append_of_le_length hne, List.getLast?_concat]
          simp [ViewHistory.new]
      · simp only [if_neg h3]
        simp only [gt_iff_lt, not_lt, List.length_append, List.length_cons,
          List.length_nil] at h3
        refine ⟨?_, ?_, ?_, ?_⟩
        · simp
        · trivial
        · simp; omega
        · rw [List.getLast?_concat]; simp [ViewHistory.new]

end NavigationState

namespace NavigationState

theorem navigate_to_spec (s : NavigationState) (p : String)
    (hlt : s.history_index < s.history.length) :
    (s.navigate_to p).history_index + 1 = (s.navigate_to p).history.length ∧
    (s.navigate_to p).max_history = s.max_history ∧
    (s.navigate_to p).history.length ≤ max s.history.length s.max_history ∧
    (s.navigate_to p).history.getLast?.map ViewHistory.path = some p := by
  have h := add_to_history_spec s p (s.get_remembered_scroll p) hlt
  simpa [navigate_to] using h

theorem go_back_inv (s : NavigationState)
    (hlt : s.history_index < s.history.length) :
    (s.go_back).2.history_index < (s.go_back).2.history.length := by
  by_cases hc : s.can_go_back = true
  · cases hg : s.history[s.history_index - 1]? with
    | some e => simp [go_back, hc, hg]; omega
    | none => simp [go_back, hc, hg]; omega
  · simp at hc
    simp [go_back, hc, hlt]

theorem go_forward_inv (s : NavigationState)
    (hlt : s.history_index < s.history.length) :
    (s.go_forward).2.history_index < (s.go_forward).2.history.length := by
  by_cases hc : s.can_go_forward = true
  · have hlt2 : s.history_index + 1 < s.history.length := by
      simpa [can_go_forward] using hc
    cases hg : s.history[s.history_index + 1]? with
    | some e => simp [go_forward, hc, hg]; omega
    | none => simp [go_forward, hc, hg]; omega
  · simp at hc
    simp [go_forward, hc, hlt]

theorem update_current_scroll_inv (s : NavigationState) (x : Rat)
    (hlt : s.history_index < s.history.length) :
    (s.update_current_scroll x).history_index <
      (s.update_current_scroll x).history.length := by
  cases hg : s.history[s.history_index]? with
  | some e => simp [update_current_scroll, hg, List.length_set]; omega
  | none => simp [update_current_scroll, hg]; omega

theorem navigate_to_tailInv (s : NavigationState) (p : String)
    (h : TailInv s) : TailInv (s.navigate_to p) := by
  obtain ⟨h1, h2⟩ := h
  have hlt : s.history_index < s.history.length := by omega
  obtain ⟨c1, c2, c3, _⟩ := navigate_to_spec s p hlt
  refine ⟨c1, ?_⟩
  rw [c2]
  exact le_trans c3 (max_le h2 le_rfl)

theorem foldl_navigate_tailInv (ps : List String) (s : NavigationState)
    (h : TailInv s) : TailInv (ps.foldl navigate_to s) := by
  induction ps generalizing s with
  | nil => exact h
  | cons q qs ih =>
    simp only [List.foldl_cons]
    exact ih _ (navigate_to_tailInv s q h)

end NavigationState

open NavigationState in
/-- C2: starting from a fresh history, after every sequence of
`navigate_to` calls the length of `history` never exceeds `max_history`,
the cursor sits on the last entry, and that entry is the most recently
navigated path. -/
theorem claim_C2_history_bound_and_tail_cursor (p0 p : String) (ps : List String) :
    ((ps ++ [p]).foldl navigate_to (new p0)).history.length ≤
      ((ps ++ [p]).foldl navigate_to (new p0)).max_history ∧
    ((ps ++ [p]).foldl navigate_to (new p0)).history_index + 1 =
      ((ps ++ [p]).foldl navigate_to (new p0)).history.length ∧
    (((ps ++ [p]).foldl navigate_to (new p0)).history[
        ((ps ++ [p]).foldl navigate_to (new p0)).history_index]?) =
      ((ps ++ [p]).foldl navigate_to (new p0)).history.getLast? ∧
    (((ps ++ [p]).foldl navigate_to (new p0)).history.getLast?).map ViewHistory.path
      = some p := by
  have hbase : TailInv (new p0) := by constructor <;> simp [new]
  have hmid := foldl_navigate_tailInv ps (new p0) hbase
  have hfin := navigate_to_tailInv (ps.foldl navigate_to (new p0)) p hmid
  have hrw : (ps ++ [p]).foldl navigate_to (new p0) =
      (ps.foldl navigate_to (new p0)).navigate_to p := by
    rw [List.foldl_append]; rfl
  rw [hrw]
  obtain ⟨h1, h2⟩ := hfin
  have hlt : (ps.foldl navigate_to (new p0)).history_index <
      (ps.foldl navigate_to (new p0)).history.length := by
    obtain ⟨a, b⟩ := hmid; omega
  obtain ⟨c1, c2, c3, c4⟩ := navigate_to_spec (ps.foldl navigate_to (new p0)) p hlt
  refine ⟨h2, c1, ?_, c4⟩
  rw [List.getLast?_eq_getElem?]
  congr 1
  omega

open NavigationState in
/-- C3 counterexample: with history `[/a, /b]` and the cursor moved back
to `/a`, `navigate_to "/a"` (the current entry's path) is NOT a no-op:
it truncates the forward entry `/b`, shrinking `entries` from length 2
to length 1. -/
theorem claim_C3_counterexample :
    (((new "/a").navigate_to "/b").go_back).2.current_path = "/a" ∧
    ((((new "/a").navigate_to "/b").go_back).2.history.get?
        (((new "/a").navigate_to "/b").go_back).2.history_index).map ViewHistory.path
      = some "/a" ∧
    (((new "/a").navigate_to "/b").go_back).2.history.length = 2 ∧
    ((((new "/a").navigate_to "/b").go_back).2.navigate_to "/a").history.length = 1 ∧
    (((new "/a").navigate_to "/b").go_back).2.navigate_to "/a" ≠
      (((new "/a").navigate_to "/b").go_back).2 := by
  decide

open NavigationState in
/-- C3 amended: `navigate_to p` with `p` the current entry's path appends
no entry, and it is a full no-op when the cursor is at the tail (as it
always is in navigate-only histories); moreover two consecutive
`navigate_to p` calls leave `entries.length` unchanged after the second
call. -/
theorem claim_C3_duplicate_suppression :
    (∀ (s : NavigationState) (p : String),
      s.history_index + 1 = s.history.length →
      s.history.getLast?.map ViewHistory.path = some p →
      s.current_path = p → s.path_input = p →
      s.navigate_to p = s) ∧
    (∀ (s : NavigationState) (p : String),
      s.history_index < s.history.length →
      ((s.navigate_to p).navigate_to p).history.length =
        (s.navigate_to p).history.length) := by
  constructor
  · intro s p h1 h2 h3 h4
    obtain ⟨cp, pi, h, hi, m⟩ := s
    simp only at h1 h2 h3 h4
    subst h3
    subst h4
    have hc1 : ¬(hi + 1 < h.length) := by omega
    simp [navigate_to, add_to_history, hc1, h2]
  · intro s p hlt
    obtain ⟨c1, _, _, c4⟩ := navigate_to_spec s p hlt
    have hc1 : ¬((s.navigate_to p).history_index + 1 <
        (s.navigate_to p).history.length) := by omega
    conv_lhs => rw [navigate_to]
    simp [add_to_history, hc1, c4]

open NavigationState in
/-- C3 amended, witness. -/
theorem claim_C3_duplicate_suppression_witness :
    (new "/a").navigate_to "/a" = new "/a" ∧
    (((new "/a").navigate_to "/b").navigate_to "/b").history.length =
      ((new "/a").navigate_to "/b").history.length :=
  ⟨claim_C3_duplicate_suppression.1 (new "/a") "/a" (by decide) (by decide) rfl rfl,
   claim_C3_duplicate_suppression.2 (new "/a") "/b" (by decide)⟩

open NavigationState in
/-- C4: after a successful `go_back` immediately followed by
`navigate_to p`, `go_forward` returns nothing and changes nothing
(branch truncation discards the forward entries before appending). -/
theorem claim_C4_branch_truncation (s : NavigationState) (p : String)
    (hlt : s.history_index < s.history.length)
    (_hb : 0 < s.history_index) :
    ((((s.go_back).2).navigate_to p).go_forward).1 = none ∧
    ((((s.go_back).2).navigate_to p).go_forward).2 =
      ((s.go_back).2).navigate_to p := by
  have hlt2 : (s.go_back).2.history_index < (s.go_back).2.history.length :=
    go_back_inv s hlt
  obtain ⟨c1, _, _, _⟩ := navigate_to_spec (s.go_back).2 p hlt2
  have hcf : ((s.go_back).2.navigate_to p).can_go_forward = false := by
    simp [can_go_forward]; omega
  constructor <;> simp [go_forward, hcf]

open NavigationState in
/-- C4, witness. -/
theorem claim_C4_branch_truncation_witness :
    (((((new "/a").navigate_to "/b").go_back).2.navigate_to "/c").go_forward).1
        = none ∧
    (((((new "/a").navigate_to "/b").go_back).2.navigate_to "/c").go_forward).2
        = (((new "/a").navigate_to "/b").go_back).2.navigate_to "/c" :=
  claim_C4_branch_truncation ((new "/a").navigate_to "/b") "/c"
    (by decide) (by decide)

open NavigationState in
/-- C5: every state reachable from construction via `navigate_to`,
`go_back`, `go_forward` and `update_current_scroll` has a non-empty
history and an in-bounds cursor. -/
theorem claim_C5_reachable_invariant (s : NavigationState) (h : Reachable s) :
    s.history ≠ [] ∧ s.history_index < s.history.length := by
  have hlt : s.history_index < s.history.length := by
    induction h with
    | init p => simp [new]
    | nav p _ ih =>
      have := navigate_to_spec _ p ih
      omega
    | back _ ih => exact go_back_inv _ ih
    | fwd _ ih => exact go_forward_inv _ ih
    | scroll x _ ih => exact update_current_scroll_inv _ x ih
  refine ⟨?_, hlt⟩
  intro hnil
  rw [hnil] at hlt
  simp at hlt

open NavigationState in
/-- C5, witness. -/
theorem claim_C5_reachable_invariant_witness :
    (new "/").history ≠ [] ∧
    (new "/").history_index < (new "/").history.length :=
  claim_C5_reachable_invariant (new "/") (Reachable.init "/")

open NavigationState in
/-- C7: the scroll-memory round-trip scenario: starting at `/home/user`,
navigating to `/home/user/docs` gives cursor 1 and `can_go_back`;
after `update_current_scroll 42`, `go_back` returns `/home/user` with
scroll `0`, and `go_forward` returns `/home/user/docs` with scroll `42`. -/
theorem claim_C7_scroll_roundtrip :
    ((new "/home/user").navigate_to "/home/user/docs").history_index = 1 ∧
    ((new "/home/user").navigate_to "/home/user/docs").can_go_back = true ∧
    ((((new "/home/user").navigate_to
        "/home/user/docs").update_current_scroll 42).go_back).1 =
      some (ViewHistory.new "/home/user" 0) ∧
    (((((new "/home/user").navigate_to
        "/home/user/docs").update_current_scroll 42).go_back).2.go_forward).1 =
      some (ViewHistory.new "/home/user/docs" 42) := by
  decide

open NavigationState in
/-- C8: at the history boundaries `go_back`/`go_forward` return nothing
and leave the state entirely unchanged. -/
theorem claim_C8_boundary_noop (s : NavigationState) :
    (s.history_index = 0 → s.go_back = (none, s)) ∧
    (s.history_index + 1 = s.history.length → s.go_forward = (none, s)) := by
  constructor
  · intro h
    simp [go_back, can_go_back, h]
  · intro h
    have : ¬(s.history_index + 1 < s.history.length) := by omega
    simp [go_forward, can_go_forward, this]

open NavigationState in
/-- C8, witness. -/
theorem claim_C8_boundary_noop_witness :
    (new "/").go_back = (none, new "/") ∧
    (new "/").go_forward = (none, new "/") :=
  ⟨(claim_C8_boundary_noop (new "/")).1 (by decide),
   (claim_C8_boundary_noop (new "/")).2 (by decide)⟩

open ElevatedDelete in
/-- C1 counterexample: with `osStage2Denied` the path no longer exists
after the stage-2 process returns, yet because the child's reported exit
status is a failure, stage 3 still runs (its batch file is written and
the elevated cmd is spawned) — refuting "no further escalation stages
run regardless of the child process's reported exit status". -/
theorem claim_C1_counterexample :
    osStage2Denied.existsAfterStage2 = false ∧
    stage3_attempted (delete_with_elevation osStage2Denied "C:/locked" true).1
      = true ∧
    (delete_with_elevation osStage2Denied "C:/locked" true).2 = Except.ok () :=
  ⟨rfl, rfl, rfl⟩

open ElevatedDelete in
/-- C1 amended: if the target is gone when stage 2 re-checks (and stays
gone at every later check), the outcome is `Success` regardless of the
child's reported exit status; but stage 2 is terminal — no further
escalation stage runs — exactly when the child also reported success. -/
theorem claim_C1_stage2_exit_status (os : OS) (p : String) (d : Bool)
    (h1 : os.normalDeleteOk = false)
    (h2 : os.existsAfterStage2 = false)
    (h3 : os.existsAfterStage3 = false)
    (h4 : os.existsAfterStage4 = false)
    (h5 : os.existsFinal = false) :
    (delete_with_elevation os p d).2 = Except.ok () ∧
    (stage3_attempted (delete_with_elevation os p d).1 = false ↔
      os.stage2Spawn = SpawnResult.ok true) := by
  obtain ⟨nd, s2, e2, bw, s3, br, e3, s4, e4, ef⟩ := os
  simp only at h1 h2 h3 h4 h5
  subst h1; subst h2; subst h3; subst h4; subst h5
  rcases s2 with ⟨_|_⟩ | ⟨m2⟩ <;>
    rcases bw with _ | ⟨w⟩ <;>
    rcases s3 with ⟨_|_⟩ | ⟨m3⟩ <;>
    rcases s4 with ⟨_|_⟩ | ⟨m4⟩ <;>
    simp [delete_with_elevation, force_delete_alternative, try_cmd_delete,
      try_powershell_direct, stage3_attempted, Except.isOk, Except.toBool]

open ElevatedDelete in
/-- C1 amended, witness. -/
theorem claim_C1_stage2_exit_status_witness :
    (delete_with_elevation osStage2Denied "C:/locked" true).2 = Except.ok () ∧
    (stage3_attempted
        (delete_with_elevation osStage2Denied "C:/locked" true).1 = false ↔
      osStage2Denied.stage2Spawn = SpawnResult.ok true) :=
  claim_C1_stage2_exit_status osStage2Denied "C:/locked" true
    rfl rfl rfl rfl rfl

open ElevatedDelete in
/-- C6: when no escalation stage makes the target disappear (it still
exists at the stage-2, stage-3 and stage-4 re-checks), the final
existence check decides the outcome: gone means `Success`, otherwise a
`Failure` whose reason says the target still exists after all deletion
attempts. -/
theorem claim_C6_final_existence_check (os : OS) (p : String) (d : Bool)
    (h1 : os.normalDeleteOk = false)
    (h2 : os.existsAfterStage2 = true)
    (h3 : os.existsAfterStage3 = true)
    (h4 : os.existsAfterStage4 = true) :
    (delete_with_elevation os p d).2 =
      (if os.existsFinal then
        Except.error "File/folder still exists after all deletion attempts"
      else Except.ok ()) := by
  obtain ⟨nd, s2, e2, bw, s3, br, e3, s4, e4, ef⟩ := os
  simp only at h1 h2 h3 h4
  subst h1; subst h2; subst h3; subst h4
  rcases s2 with ⟨_|_⟩ | ⟨m2⟩ <;>
    rcases bw with _ | ⟨w⟩ <;>
    rcases s3 with ⟨_|_⟩ | ⟨m3⟩ <;>
    rcases s4 with ⟨_|_⟩ | ⟨m4⟩ <;>
    rcases ef <;>
    simp [delete_with_elevation, force_delete_alternative, try_cmd_delete,
      try_powershell_direct, Except.isOk, Except.toBool]

open ElevatedDelete in
/-- C6, witness. -/
theorem claim_C6_final_existence_check_witness :
    (delete_with_elevation osAllFail "C:/held" false).2 =
      (if osAllFail.existsFinal then
        Except.error "File/folder still exists after all deletion attempts"
      else Except.ok ()) :=
  claim_C6_final_existence_check osAllFail "C:/held" false rfl rfl rfl rfl

open ElevatedDelete in
/-- C9: whenever the temporary batch file is written successfully, the
elevated cmd invocation is launched and the batch file is removed
afterwards, in that order, whatever the invocation's outcome
(`os.stage3Spawn` is arbitrary); and the whole call never depends on
whether that removal succeeds (`batRemoveOk` is discarded). -/
theorem claim_C9_temp_script_cleanup (os : OS) (p : String) (d : Bool)
    (h : os.batWriteErr = none) :
    (try_cmd_delete os p d).1 =
      [Ev.writeBat (script_content p d), Ev.spawnCmd, Ev.removeBat] ∧
    (∀ b : Bool,
      try_cmd_delete { os with batRemoveOk := b } p d =
        try_cmd_delete os p d) := by
  obtain ⟨nd, s2, e2, bw, s3, br, e3, s4, e4, ef⟩ := os
  simp only at h
  subst h
  rcases s3 with ⟨_|_⟩ | ⟨m3⟩ <;>
    simp [try_cmd_delete]

open ElevatedDelete in
/-- C9, witness. -/
theorem claim_C9_temp_script_cleanup_witness :
    (try_cmd_delete osStage2Denied "C:/locked" true).1 =
      [Ev.writeBat (script_content "C:/locked" true), Ev.spawnCmd,
       Ev.removeBat] ∧
    (∀ b : Bool,
      try_cmd_delete { osStage2Denied with batRemoveOk := b } "C:/locked" true =
        try_cmd_delete osStage2Denied "C:/locked" true) :=
  claim_C9_temp_script_cleanup osStage2Denied "C:/locked" true rfl

open ElevatedDelete in
set_option maxRecDepth 8192 in
/-- C10: the stage-3 batch script embeds the path text verbatim inside
double quotes — for every path the raw path text is a contiguous
substring of the script, and for a concrete path containing a double
quote the quote-doubled variant does not occur (no escaping happened) —
unlike stages 2 and 4, whose interpolated text is the path with embedded
single quotes doubled, which for a quote-containing path is not the raw
path text. -/
theorem claim_C10_stage3_no_quoting :
    (∀ (p : String) (d : Bool),
      p.data <:+: (ElevatedDelete.script_content p d).data) ∧
    ("C:\\evil\"dir".data <:+:
      (ElevatedDelete.script_content "C:\\evil\"dir" true).data) ∧
    ¬((ElevatedDelete.rust_replace "C:\\evil\"dir" "\"" "\"\"").data <:+:
      (ElevatedDelete.script_content "C:\\evil\"dir" true).data) ∧
    (∀ (p : String) (d : Bool),
      (ElevatedDelete.rust_replace p "'" "''").data <:+:
        (ElevatedDelete.ps_script p d).data ∧
      (ElevatedDelete.rust_replace p "'" "''").data <:+:
        (ElevatedDelete.ps_command p d).data) ∧
    ¬("a'b".data <:+: (ElevatedDelete.ps_script "a'b" false).data) := by
  refine ⟨?_, by decide, by decide, ?_, by decide⟩
  · intro p d
    rcases d <;>
      [skip; skip] <;>
      simp only [ElevatedDelete.script_content, if_true, if_false,
        Bool.false_eq_true, String.data_append] <;>
      exact ⟨_, _, rfl⟩
  · intro p d
    constructor <;> rcases d <;>
      simp only [ElevatedDelete.ps_script, ElevatedDelete.ps_command,
        if_true, if_false, Bool.false_eq_true, String.data_append] <;>
      exact ⟨_, _, rfl⟩
